import Mathlib

/-!
Verification development for the spotify-shopper backend.

This file gives a shallow embedding, in Lean 4, of the parts of the code base
that the specification's testable properties talk about:

* the text normalizers of src/lib/rekordbox/normalizer.py,
* the track-identity key generators and playlist flattening of src/core.py,
* the Rekordbox XML library loading and index construction of
  src/lib/rekordbox/parser.py,
* the owned-track matcher of src/lib/rekordbox/matcher.py,
* the Spotify playlist fetcher of src/core.py (editorial short circuit and
  regional market cascade),
* the cache keys of src/app.py and the per-URL cache of
  fetch_apple_playlist_tracks_from_web in src/core.py,
* the virtualized-list scroll loop of run_fast_playwright in src/core.py.

Python strings are modelled as Lean strings; the ASCII fragments of
str.lower / str.upper / str.strip and of the regular expressions used by the
code are translated directly (all concrete inputs appearing in claims are
ASCII).  Python dicts are modelled as association lists where a later insert
shadows an earlier binding, which matches dict.get / dict.__setitem__
semantics.  Python floats produced by difflib ratios are modelled as
rationals; the similarity function itself (difflib.SequenceMatcher.ratio,
standard-library code outside this repository) is a parameter of the matcher
model.
-/

namespace SpotifyShopper

/-! ## Python string primitives (ASCII model) -/

/-- ASCII whitespace characters recognised by Python's str.strip and the
regex class of whitespace. -/
def isPyWS (c : Char) : Bool :=
  c == ' ' || c == '\t' || c == '\n' || c == '\r' || c == '\x0b' || c == '\x0c'

/-- Model of str.lower (ASCII fragment). -/
def pyLower (s : String) : String := ⟨s.data.map Char.toLower⟩

/-- Model of str.upper (ASCII fragment). -/
def pyUpper (s : String) : String := ⟨s.data.map Char.toUpper⟩

/-- Model of str.startswith. -/
def pyStartsWith (pre s : String) : Bool := pre.data.isPrefixOf s.data

/-- Strip whitespace from both ends of a character list. -/
def pyStripList (cs : List Char) : List Char :=
  ((cs.dropWhile isPyWS).reverse.dropWhile isPyWS).reverse

/-- Model of str.strip() with no arguments. -/
def pyStrip (s : String) : String := ⟨pyStripList s.data⟩

/-- Collapse every maximal whitespace run to a single space: model of
re.sub applied with the one-or-more-whitespace pattern and a space
replacement.  A whitespace character followed by another whitespace
character is dropped, so each maximal run contributes exactly one space. -/
def collapseWS : List Char → List Char
  | [] => []
  | [c] => if isPyWS c then [' '] else [c]
  | c1 :: c2 :: rest =>
    if isPyWS c1 && isPyWS c2 then collapseWS (c2 :: rest)
    else (if isPyWS c1 then ' ' else c1) :: collapseWS (c2 :: rest)

/-- Suffix of a list after the first occurrence of a character, if any. -/
def afterFirstChar (cl : Char) : List Char → Option (List Char)
  | [] => none
  | c :: rest => if c == cl then some rest else afterFirstChar cl rest

/-- Fuel-indexed worker for removeEnclosed; the fuel dominates the list
length at every call, so the fuel-exhausted branch is never taken from the
wrapper. -/
def removeEnclosedAux (op cl : Char) : Nat → List Char → List Char
  | 0, cs => cs
  | _ + 1, [] => []
  | fuel + 1, c :: rest =>
    if c == op then
      match afterFirstChar cl rest with
      | some rest2 => removeEnclosedAux op cl fuel rest2
      | none => c :: removeEnclosedAux op cl fuel rest
    else c :: removeEnclosedAux op cl fuel rest

/-- Delete every bracketed region: model of re.sub with a pattern made of an
opening delimiter, any run of characters other than the closing delimiter,
and the closing delimiter (as used for parentheses and square brackets in
normalize_title_base / normalize_album).  A match runs from an opening
delimiter to the first closing delimiter after it; an unmatched opening
delimiter is kept. -/
def removeEnclosed (op cl : Char) (cs : List Char) : List Char :=
  removeEnclosedAux op cl cs.length cs

/-- Earliest index whose suffix satisfies the predicate. -/
def findIdxSuffix (p : List Char → Bool) : List Char → Option Nat
  | [] => if p [] then some 0 else none
  | c :: rest =>
    if p (c :: rest) then some 0
    else (findIdxSuffix p rest).map (· + 1)

/-- Does the list start with the given token followed by at least one
whitespace character?  Token alternatives as in the feat-stripping regex of
normalizer.py: a literal feat-dot, ft-dot, or the word featuring. -/
def featTokenWS (cs : List Char) : Bool :=
  let tokens := ["feat.".data, "ft.".data, "featuring".data]
  tokens.any fun tok =>
    tok.isPrefixOf cs &&
      match (cs.drop tok.length).head? with
      | some c => isPyWS c
      | none => false

/-- Does a feat-pattern match start exactly here: one or more whitespace
characters, then a feat token, then at least one whitespace character. -/
def featMatchAt (cs : List Char) : Bool :=
  let ws := cs.takeWhile isPyWS
  ws ≠ [] && featTokenWS (cs.dropWhile isPyWS)

/-- Prefix of the string before the first feat-pattern match: shared model of
the feat-stripping re.sub of normalize_title_base and the re.split (first
part) of normalize_artist. -/
def featStrip (cs : List Char) : List Char :=
  match findIdxSuffix featMatchAt cs with
  | some i => cs.take i
  | none => cs

/-- Does the remainder match one of the trailing-mix alternatives, anchored
at the end of the string?  The remix alternative accepts any continuation,
the others must equal the remainder exactly. -/
def mixAltMatch (cs : List Char) : Bool :=
  let exacts := ["original mix", "extended mix", "radio edit", "club mix",
                 "dub mix", "dub", "vip", "edit", "mix"]
  exacts.any (fun t => cs == t.data) || "remix".data.isPrefixOf cs

/-- Does the trailing-mix pattern match starting here: optional whitespace, a
hyphen, optional whitespace, then a mix alternative running to the end. -/
def mixMatchAt (cs : List Char) : Bool :=
  match cs.dropWhile isPyWS with
  | '-' :: rest => mixAltMatch (rest.dropWhile isPyWS)
  | _ => false

/-- Prefix of the string before the first trailing-mix match: model of the
mix-suffix re.sub of normalize_title_base. -/
def mixStrip (cs : List Char) : List Char :=
  match findIdxSuffix mixMatchAt cs with
  | some i => cs.take i
  | none => cs

/-- Earliest index where a token occurs as a substring. -/
def firstOccurrence (tok : List Char) (cs : List Char) : Option Nat :=
  findIdxSuffix (fun suf => tok.isPrefixOf suf) cs

/-- Model of the Python idiom guarded by a containment test: take the part
before the first occurrence of the separator and strip it, leaving the
string unchanged when the separator does not occur. -/
def splitFirstStrip (sep : String) (cs : List Char) : List Char :=
  match firstOccurrence sep.data cs with
  | some i => pyStripList (cs.take i)
  | none => cs

/-- Replace one character by another everywhere (model of str.replace with a
single-character needle). -/
def replaceChar (a b : Char) (cs : List Char) : List Char :=
  cs.map fun c => if c == a then b else c

/-! ## normalizer.py -/

/-- Translation of normalize_artist in src/lib/rekordbox/normalizer.py:
lowercase and strip; keep only the part before the first comma, ampersand or
the word and (applied in sequence); drop a feat suffix; collapse whitespace;
escape the pipe delimiter to a fullwidth solidus. -/
def normalize_artist (name : String) : String :=
  let s0 := pyStripList (pyLower name).data
  let s1 := splitFirstStrip "," s0
  let s2 := splitFirstStrip "&" s1
  let s3 := splitFirstStrip " and " s2
  let s4 := featStrip s3
  let s5 := pyStripList (collapseWS s4)
  ⟨replaceChar '|' '／' s5⟩

/-- Translation of normalize_title_base in src/lib/rekordbox/normalizer.py:
lowercase and strip; delete parenthesised and bracketed regions; drop a feat
suffix and a trailing mix qualifier; collapse whitespace; escape the pipe
delimiter to a fullwidth solidus. -/
def normalize_title_base (title : String) : String :=
  let s0 := pyStripList (pyLower title).data
  let s1 := removeEnclosed '(' ')' s0
  let s2 := removeEnclosed '[' ']' s1
  let s3 := featStrip s2
  let s4 := mixStrip s3
  let s5 := pyStripList (collapseWS s4)
  ⟨replaceChar '|' '／' s5⟩

/-- Translation of normalize_album in src/lib/rekordbox/normalizer.py. -/
def normalize_album (album : String) : String :=
  let s0 := pyStripList (pyLower album).data
  let s1 := removeEnclosed '(' ')' s0
  let s2 := removeEnclosed '[' ']' s1
  let s3 := pyStripList (collapseWS s2)
  ⟨replaceChar '|' '／' s3⟩

/-! ## Track identity keys and store links (src/core.py) -/

/-- Hexadecimal digit (uppercase), as produced by Python's percent
encoding. -/
def hexDigit (n : Nat) : Char :=
  if n < 10 then Char.ofNat ('0'.toNat + n) else Char.ofNat ('A'.toNat + n - 10)

/-- Bytes urllib.parse.quote leaves unescaped: ASCII letters, digits,
underscore, dot, hyphen, tilde. -/
def isSafeByte (b : UInt8) : Bool :=
  (65 ≤ b && b ≤ 90) || (97 ≤ b && b ≤ 122) || (48 ≤ b && b ≤ 57) ||
    b == 95 || b == 46 || b == 45 || b == 126

/-- Model of urllib.parse.quote_plus: UTF-8 bytes, space to plus, safe bytes
kept, the rest percent-encoded with uppercase hex. -/
def quotePlus (s : String) : String :=
  ⟨(s.toUTF8.toList).foldr
    (fun b acc =>
      (if b == 32 then ['+']
       else if isSafeByte b then [Char.ofNat b.toNat]
       else ['%', hexDigit (b.toNat / 16), hexDigit (b.toNat % 16)]) ++ acc)
    []⟩

/-- Python's falsy-string choice: a or b returns a unless a is empty. -/
def pyOrStr (a b : String) : String := if a ≠ "" then a else b

structure StoreLinks where
  beatport : String
  bandcamp : String
  itunes : String
deriving Repr, DecidableEq

/-- Translation of build_store_links in src/core.py.  The album argument is
accepted but unused, exactly as in the source. -/
def build_store_links (title artist : String) (album : Option String)
    (isrc : Option String) : StoreLinks :=
  let _ := album
  let title_clean := pyStrip title
  let artist_clean := pyStrip artist
  let isrc_clean : Option String :=
    match isrc with
    | some i => if i ≠ "" then some (pyUpper (pyStrip i)) else none
    | none => none
  let joined := pyStrip (title_clean ++ " " ++ artist_clean)
  let beatport_query :=
    pyOrStr joined (pyOrStr title_clean (pyOrStr artist_clean (isrc_clean.getD "")))
  let itunes_q :=
    match isrc_clean with
    | some i => if i ≠ "" then quotePlus i else quotePlus joined
    | none => quotePlus joined
  { beatport := "https://www.beatport.com/search?q=" ++ quotePlus beatport_query
    bandcamp := "https://bandcamp.com/search?q=" ++ quotePlus joined
    itunes := "https://music.apple.com/search?term=" ++ itunes_q }

/-- Translation of the primary-key generator of src/core.py: an isrc-tagged
key when the ISRC is truthy and not whitespace-only, otherwise no key. -/
def generate_track_key_primary (isrc : Option String) : Option String :=
  match isrc with
  | some i => if i ≠ "" ∧ pyStrip i ≠ "" then some ("isrc:" ++ pyUpper i) else none
  | none => none

/-- Escape backslash and pipe in a key field, as the inner helper of the
fallback-key generator does (backslash first, then pipe). -/
def sanitize_field (s : String) : String :=
  ⟨replaceChar '|' '／' (replaceChar '\\' '＼' s.data)⟩

/-- Translation of the fallback-key generator of src/core.py: normalized and
escaped title, artist and (when non-empty) album, pipe-joined under a norm
tag. -/
def generate_track_key_fallback (title artist : String) (album : Option String) :
    String :=
  let t_norm := sanitize_field (normalize_title_base title)
  let a_norm := sanitize_field (normalize_artist artist)
  let alb_norm := sanitize_field (normalize_album (album.getD ""))
  if alb_norm ≠ "" then "norm:" ++ t_norm ++ "|" ++ a_norm ++ "|" ++ alb_norm
  else "norm:" ++ t_norm ++ "|" ++ a_norm

/-! ## playlist_result_to_dict (src/core.py)

Raw Spotify payloads are modelled structurally: only the fields the function
reads are carried.  The Unicode NFC normalization applied to display text is
modelled as an arbitrary function parameter, since it does not affect key
generation from the ISRC and the fallback key keeps its norm tag under any
text transformation. -/

structure RawArtist where
  name : Option String
deriving Repr, DecidableEq

structure RawAlbum where
  name : Option String
deriving Repr, DecidableEq

structure RawExternalUrls where
  spotify : Option String
  apple : Option String
deriving Repr, DecidableEq

structure RawTrack where
  name : Option String
  artists : List RawArtist
  album : Option RawAlbum
  externalUrls : RawExternalUrls
  isrcEx : Option String
  isLocal : Bool
deriving Repr, DecidableEq

/-- A playlist item; a missing or falsy track dict is modelled as none. -/
structure RawItem where
  track : Option RawTrack
deriving Repr, DecidableEq

structure RawPlaylist where
  id : Option String
  name : Option String
  urlSpotify : Option String
  urlApple : Option String
deriving Repr, DecidableEq

structure RawResult where
  playlist : RawPlaylist
  items : List RawItem
deriving Repr, DecidableEq

structure TrackOut where
  title : String
  artist : String
  album : String
  isrc : Option String
  spotify_url : String
  apple_url : String
  links : StoreLinks
  track_key_primary : String
  track_key_fallback : String
  track_key_primary_type : String
  track_key_version : String
deriving Repr, DecidableEq

structure PlaylistDict where
  playlist_id : String
  playlist_name : String
  playlist_url : String
  tracks : List TrackOut
deriving Repr, DecidableEq

/-- Loop body of playlist_result_to_dict for one present, non-local track. -/
def mkTrackOut (nfc : String → String) (track : RawTrack) : TrackOut :=
  let title := nfc (track.name.getD "")
  let artist_parts := track.artists.filterMap fun a =>
    match a.name with
    | some n => if n ≠ "" then some (nfc n) else none
    | none => none
  let artist_name := String.intercalate ", " artist_parts
  let album_name := nfc ((track.album.map (fun al => al.name.getD "")).getD "")
  let isrc := track.isrcEx
  let tkp := generate_track_key_primary isrc
  let tkf := generate_track_key_fallback title artist_name (some album_name)
  { title := title
    artist := artist_name
    album := album_name
    isrc := isrc
    spotify_url := track.externalUrls.spotify.getD ""
    apple_url := track.externalUrls.apple.getD ""
    links := build_store_links title artist_name (some album_name) isrc
    track_key_primary := match tkp with
      | some p => if p ≠ "" then p else tkf
      | none => tkf
    track_key_fallback := tkf
    track_key_primary_type := match tkp with
      | some p => if p ≠ "" ∧ pyStartsWith "isrc:" p then "isrc" else "norm"
      | none => "norm"
    track_key_version := "v1" }

/-- Translation of playlist_result_to_dict in src/core.py: flatten the raw
playlist and items into the frontend dict, skipping missing and local
tracks. -/
def playlist_result_to_dict (nfc : String → String) (raw : RawResult) :
    PlaylistDict :=
  { playlist_id := raw.playlist.id.getD ""
    playlist_name := nfc (raw.playlist.name.getD "")
    playlist_url := pyOrStr (raw.playlist.urlSpotify.getD "") (raw.playlist.urlApple.getD "")
    tracks := raw.items.filterMap fun item =>
      match item.track with
      | none => none
      | some track => if track.isLocal then none else some (mkTrackOut nfc track) }

/-! ## Python dict model

Dicts are association lists; an insert prepends and lookup returns the
newest binding, so a later insert shadows an earlier one exactly as a dict
overwrite does.  The append operation models dict.setdefault followed by
list.append. -/

def dictGet {K V : Type} [DecidableEq K] (k : K) : List (K × V) → Option V
  | [] => none
  | (k', v) :: rest => if k' = k then some v else dictGet k rest

def dictInsert {K V : Type} [DecidableEq K] (k : K) (v : V) (d : List (K × V)) :
    List (K × V) :=
  (k, v) :: d

def replaceBinding {K V : Type} [DecidableEq K] (k : K) (v : V) :
    List (K × V) → List (K × V)
  | [] => []
  | (k', v') :: rest =>
    if k' = k then (k, v) :: rest else (k', v') :: replaceBinding k v rest

def dictAppend {K V : Type} [DecidableEq K] (k : K) (v : V)
    (d : List (K × List V)) : List (K × List V) :=
  match dictGet k d with
  | none => (k, [v]) :: d
  | some l => replaceBinding k (l ++ [v]) d

/-! ## Rekordbox parser (src/lib/rekordbox/parser.py) -/

/-- Attributes of one TRACK element of the XML collection; a missing
attribute is none. -/
structure TrackElem where
  name : Option String
  artist : Option String
  album : Option String
  isrc : Option String
deriving Repr, DecidableEq

/-- Translation of the RekordboxTrack dataclass of
src/lib/rekordbox/models.py. -/
structure RekordboxTrack where
  title : String
  artist : String
  album : String
  isrc : Option String
  title_norm : String
  artist_norm : String
  album_norm : String
deriving Repr, DecidableEq

/-- Translation of the RekordboxLibrary dataclass: the four indices built by
the parser. -/
structure RekordboxLibrary where
  by_isrc : List (String × RekordboxTrack)
  by_title_artist : List ((String × String) × List RekordboxTrack)
  by_artist_norm : List (String × List RekordboxTrack)
  by_title_album : List ((String × String) × List RekordboxTrack)
deriving Repr, DecidableEq

/-- Earliest hyphen position usable by the dashed-title pattern of
generate_title_artist_pairs: index at least one, with a non-empty remainder
after the hyphen. -/
def dashIdx (cs : List Char) : Option Nat :=
  match cs with
  | [] => none
  | _ :: rest =>
    (findIdxSuffix
      (fun suf => match suf with | '-' :: r => !r.isEmpty | _ => false) rest).map (· + 1)

/-- Model of the lazy-left dashed-title regex match of
generate_title_artist_pairs, with both captured groups stripped as the
source strips them: split at the earliest hyphen that is not the first
character and has a non-empty remainder. -/
def dashSplit (s : String) : Option (String × String) :=
  let cs := (pyStrip s).data
  (dashIdx cs).map fun j => (⟨pyStripList (cs.take j)⟩, ⟨pyStripList (cs.drop (j + 1))⟩)

/-- Translation of generate_title_artist_pairs in
src/lib/rekordbox/normalizer.py: the base normalized pair plus, for a
dashed title, the swapped candidate pair when new. -/
def generate_title_artist_pairs (title artist : String) :
    List (String × String) :=
  let base_t := normalize_title_base title
  let base_a := normalize_artist artist
  let pairs := if base_t ≠ "" ∧ base_a ≠ "" then [(base_t, base_a)] else []
  match dashSplit title with
  | some (leftRaw, rightRaw) =>
    let cand_a := normalize_artist leftRaw
    let cand_t := normalize_title_base rightRaw
    if cand_a ≠ "" ∧ cand_t ≠ "" ∧ (cand_t, cand_a) ∉ pairs then
      pairs ++ [(cand_t, cand_a)]
    else pairs
  | none => pairs

/-- Per-element record construction of the parser loop: Name, Artist and
Album are stripped with an empty default, ISRC is kept raw. -/
def trackInfoOfElem (e : TrackElem) : RekordboxTrack :=
  let title := pyStrip (e.name.getD "")
  let artist := pyStrip (e.artist.getD "")
  let album := pyStrip (e.album.getD "")
  { title := title
    artist := artist
    album := album
    isrc := e.isrc
    title_norm := normalize_title_base title
    artist_norm := normalize_artist artist
    album_norm := normalize_album album }

/-- Index updates of one iteration of the parser loop. -/
def addTrackToLibrary (lib : RekordboxLibrary) (e : TrackElem) :
    RekordboxLibrary :=
  let info := trackInfoOfElem e
  let lib1 :=
    match e.isrc with
    | some j =>
      if j ≠ "" then { lib with by_isrc := dictInsert (pyUpper j) info lib.by_isrc }
      else lib
    | none => lib
  let lib2 := (generate_title_artist_pairs info.title info.artist).foldl
    (fun l p => { l with by_title_artist := dictAppend p info l.by_title_artist }) lib1
  let lib3 :=
    if info.artist_norm ≠ "" then
      { lib2 with by_artist_norm := dictAppend info.artist_norm info lib2.by_artist_norm }
    else lib2
  if info.title_norm ≠ "" ∧ info.album_norm ≠ "" then
    { lib3 with by_title_album :=
        dictAppend (info.title_norm, info.album_norm) info lib3.by_title_album }
  else lib3

def emptyLibrary : RekordboxLibrary :=
  { by_isrc := [], by_title_artist := [], by_artist_norm := [], by_title_album := [] }

/-- Index construction over the TRACK elements of the COLLECTION, in
document order. -/
def buildLibrary (tracks : List TrackElem) : RekordboxLibrary :=
  tracks.foldl addTrackToLibrary emptyLibrary

inductive LoadError where
  | notFound
  | overflow
  | timeout
  | invalidXml
deriving Repr, DecidableEq

/-- Observable shape of one call to load_rekordbox_library_xml: whether the
XML parse was executed (and, when executed, ran to completion before any
time-ceiling check), and the returned or raised outcome. -/
structure LoadTrace where
  parseRan : Bool
  result : Except LoadError RekordboxLibrary
deriving Repr

/-- Translation of load_rekordbox_library_xml in
src/lib/rekordbox/parser.py, with the file system abstracted to the facts
the function reads: existence, byte size, the measured parse duration in
milliseconds, and the parsed document.  The in-memory TTL cache is the
cache argument (the binding found under the size-and-mtime key, if any).
Control flow follows the source: existence check, size ceiling, cache
lookup, full parse, then the time-ceiling comparison on the measured
duration, then the COLLECTION structural check. -/
def load_rekordbox_library_xml (maxSizeBytes timeoutMs : Nat)
    (cache : Option RekordboxLibrary)
    (fileExists : Bool) (sizeBytes parseMs : Nat)
    (hasCollection : Bool) (tracks : List TrackElem) : LoadTrace :=
  if !fileExists then ⟨false, .error .notFound⟩
  else if sizeBytes > maxSizeBytes then ⟨false, .error .overflow⟩
  else
    match cache with
    | some lib => ⟨false, .ok lib⟩
    | none =>
      if parseMs > timeoutMs then ⟨true, .error .timeout⟩
      else if !hasCollection then ⟨true, .error .invalidXml⟩
      else ⟨true, .ok (buildLibrary tracks)⟩

/-! ## Matcher (src/lib/rekordbox/matcher.py)

The similarity ratio of difflib.SequenceMatcher (standard-library code, not
part of this repository) is a parameter; its values are modelled as
rationals, and the threshold literal 0.92 as the rational 92/100. -/

structure OwnedDetail where
  method : String
  score : ℚ
  matched_title : String
  matched_artist : String
  rb_track : RekordboxTrack
deriving Repr, DecidableEq

/-- A track after mark_owned_tracks: the unchanged input fields plus the
three keys the function assigns.  An empty owned_detail dict is none. -/
structure MatchedTrack where
  track : TrackOut
  owned : Bool
  owned_detail : Option OwnedDetail
  owned_reason : Option String
deriving Repr, DecidableEq

/-- Worker of the best-candidate scan: strictly improving accumulation over
the candidate list. -/
def bestFuzzyGo (sim : String → String → ℚ) (titleN : String) :
    ℚ × Option RekordboxTrack → List RekordboxTrack → ℚ × Option RekordboxTrack
  | acc, [] => acc
  | acc, rb :: rest =>
    let score := sim titleN (normalize_title_base rb.title)
    bestFuzzyGo sim titleN (if acc.1 < score then (score, some rb) else acc) rest

/-- Best-candidate scan of the fuzzy stage: strictly improving fold over the
same-artist candidate list, scoring the playlist title against each
candidate's normalized title, starting from score zero and no candidate. -/
def bestFuzzy (sim : String → String → ℚ) (titleN : String)
    (cands : List RekordboxTrack) : ℚ × Option RekordboxTrack :=
  bestFuzzyGo sim titleN (0, none) cands

/-- Stage one of the cascade: exact ISRC lookup, for a truthy playlist
ISRC, against the uppercased index key. -/
def stage_isrc (lib : RekordboxLibrary) (isrc : Option String) :
    Option OwnedDetail :=
  match isrc with
  | some i =>
    if i ≠ "" then
      match dictGet (pyUpper i) lib.by_isrc with
      | some rb => some ⟨"isrc", 1, rb.title, rb.artist, rb⟩
      | none => none
    else none
  | none => none

/-- Stage two: normalized title-plus-artist lookup, first candidate. -/
def stage_exact (lib : RekordboxLibrary) (title_norm artist_norm : String) :
    Option OwnedDetail :=
  if title_norm ≠ "" ∧ artist_norm ≠ "" then
    match (dictGet (title_norm, artist_norm) lib.by_title_artist).getD [] with
    | rb :: _ => some ⟨"exact", 1, rb.title, rb.artist, rb⟩
    | [] => none
  else none

/-- Stage three: normalized title-plus-album lookup, first candidate. -/
def stage_album (lib : RekordboxLibrary) (title_norm album_norm : String) :
    Option OwnedDetail :=
  if title_norm ≠ "" ∧ album_norm ≠ "" then
    match (dictGet (title_norm, album_norm) lib.by_title_album).getD [] with
    | rb :: _ => some ⟨"album", 1, rb.title, rb.artist, rb⟩
    | [] => none
  else none

/-- Stage four: best same-artist fuzzy candidate, accepted at or above the
threshold literal of the source (the float literal 0.92, modelled as the
rational of 92 over 100). -/
def stage_fuzzy (sim : String → String → ℚ) (lib : RekordboxLibrary)
    (title_norm artist_norm : String) : Option OwnedDetail :=
  if title_norm ≠ "" ∧ artist_norm ≠ "" then
    let best := bestFuzzy sim title_norm ((dictGet artist_norm lib.by_artist_norm).getD [])
    if mkRat 92 100 ≤ best.1 ∧ best.2.isSome then
      match best.2 with
      | some rb => some ⟨"fuzzy", best.1, rb.title, rb.artist, rb⟩
      | none => none
    else none
  else none

/-- Loop body of mark_owned_tracks for one playlist track: the four-stage
priority cascade.  Each stage is an optional detail and the stages are
joined in priority order, which is equivalent to the source's owned-guarded
sequence because the stages are pure. -/
def mark_owned_track (sim : String → String → ℚ) (lib : RekordboxLibrary)
    (t : TrackOut) : MatchedTrack :=
  let title_norm := normalize_title_base t.title
  let artist_norm := normalize_artist t.artist
  let album_norm := normalize_album t.album
  match stage_isrc lib t.isrc <|> stage_exact lib title_norm artist_norm <|>
      stage_album lib title_norm album_norm <|>
      stage_fuzzy sim lib title_norm artist_norm with
  | some d => ⟨t, true, some d, some d.method⟩
  | none => ⟨t, false, none, none⟩

/-- Translation of the track loop of mark_owned_tracks: every track of the
playlist is annotated in place. -/
def mark_owned_tracks (sim : String → String → ℚ) (lib : RekordboxLibrary)
    (tracks : List TrackOut) : List MatchedTrack :=
  tracks.map (mark_owned_track sim lib)

/-! ## Spotify fetcher (src/core.py)

The Spotipy client is abstracted to an environment: credential presence, the
outcome of the playlist-metadata request, the configured market list, and a
per-market page oracle giving the successive results of the initial
playlist-tracks request and the follow-up pagination requests.  Track items
are an abstract type. -/

def isAlnumAscii (c : Char) : Bool := c.isAlpha || c.isDigit

/-- Match of the URI-shaped pattern: the spotify-playlist scheme tag
followed by one or more alphanumeric characters, to the end. -/
def uriPlaylistTail (s : String) : Option String :=
  let tag := "spotify:playlist:"
  if pyStartsWith tag s then
    let rest : String := ⟨s.data.drop tag.data.length⟩
    if rest ≠ "" ∧ rest.data.all isAlnumAscii then some rest else none
  else none

/-- Characters allowed in a URL scheme by urlsplit: letters, digits, plus,
hyphen, dot. -/
def isSchemeChar (c : Char) : Bool :=
  isAlnumAscii c || c == '+' || c == '-' || c == '.'

/-- Remainder after a valid scheme tag, as urlsplit computes it: when the
first colon sits at a positive index and everything before it is a scheme
character, the scheme and colon are dropped; otherwise the string is kept
whole. -/
def urlAfterScheme (cs : List Char) : List Char :=
  match firstOccurrence [':'] cs with
  | some i =>
    if 0 < i ∧ (cs.take i).all isSchemeChar then cs.drop (i + 1) else cs
  | none => cs

/-- Netloc and path components of a URL, in the fragment of urlparse the
extractor relies on: after the scheme, a netloc is present only behind a
double slash and runs to the first slash, question mark or hash; the path
runs to the first question mark or hash.  Without a double slash the netloc
is empty (and the host check of the caller then fails). -/
def urlNetlocPath (s : String) : String × String :=
  let rest := urlAfterScheme s.data
  if "//".data.isPrefixOf rest then
    let after := rest.drop 2
    let netloc := after.takeWhile fun c => !(c == '/' || c == '?' || c == '#')
    let afterNet := after.drop netloc.length
    let path := afterNet.takeWhile fun c => !(c == '?' || c == '#')
    (⟨netloc⟩, ⟨path⟩)
  else ("", ⟨rest.takeWhile fun c => !(c == '?' || c == '#')⟩)

/-- First path segment following a playlist segment, when present. -/
def segmentAfterPlaylist : List String → Option String
  | [] => none
  | p :: rest => if p = "playlist" then rest.head? else segmentAfterPlaylist rest

/-- Split on a separator character, keeping empty segments, as str.split
with a one-character separator does. -/
def splitChar (sep : Char) : List Char → List (List Char)
  | [] => [[]]
  | c :: rest =>
    if c == sep then [] :: splitChar sep rest
    else
      match splitChar sep rest with
      | g :: gs => (c :: g) :: gs
      | [] => [[c]]

/-- Web-URL form of the extractor: open-spotify host, then the segment after
a playlist path segment. -/
def spotifyWebId (s : String) : Option String :=
  let np := urlNetlocPath s
  let hostL := pyLower np.1
  if (firstOccurrence "open.spotify.com".data hostL.data).isSome then
    segmentAfterPlaylist
      (((splitChar '/' np.2.data).map fun g => (⟨g⟩ : String)).filter (· ≠ ""))
  else none

/-- Translation of extract_playlist_id in src/core.py: strip, then the URI
form, then the web-URL form, then the raw-identifier pattern of sixteen or
more alphanumeric characters. -/
def extract_playlist_id (url_or_id : String) : Except String String :=
  let s := pyStrip url_or_id
  if s = "" then .error "Empty playlist URL or ID"
  else
    match uriPlaylistTail s with
    | some pid => .ok pid
    | none =>
      match spotifyWebId s with
      | some pid => .ok pid
      | none =>
        if 16 ≤ s.length ∧ s.data.all isAlnumAscii then .ok s
        else .error ("Could not extract Spotify playlist ID from: " ++ s)

/-- One page request to the tracks endpoint: an exception carrying an HTTP
status, or a page of items with a next-page flag. -/
inductive PageFetch (α : Type) where
  | fetchErr (status : Nat)
  | page (items : List α) (hasNext : Bool)
deriving Repr, DecidableEq

/-- Successive page-request results a market would produce: the initial
playlist-tracks request and then the pagination requests, in order. -/
structure MarketPages (α : Type) where
  first : PageFetch α
  rest : List (PageFetch α)
deriving Repr, DecidableEq

/-- Outcome of fetching one market to exhaustion of its pages. -/
inductive MarketRun (α : Type) where
  | initialErr (status : Nat)
  | pageErr (status : Nat)
  | done (items : List α)
deriving Repr, DecidableEq

/-- Pagination loop: extend the accumulator while a next page is flagged; a
failing pagination request is wrapped into a fatal error by the source (the
wrapper is not caught by the per-market handler). -/
def paginate {α : Type} : List α → Bool → List (PageFetch α) → MarketRun α
  | acc, false, _ => .done acc
  | acc, true, [] => .done acc
  | _, true, (.fetchErr st) :: _ => .pageErr st
  | acc, true, (.page its nx) :: rest => paginate (acc ++ its) nx rest

def runMarket {α : Type} (mp : MarketPages α) : MarketRun α :=
  match mp.first with
  | .fetchErr st => .initialErr st
  | .page its nx => paginate its nx mp.rest

inductive CascadeOutcome (α : Type) where
  | ok (items : List α)
  | fatalStatus (status : Nat)
  | fatalPagination (status : Nat)
  | exhausted (lastStatus : Option Nat)
deriving Repr, DecidableEq

/-- Result of the market loop, together with the markets whose initial
request was actually issued, in order. -/
structure CascadeResult (α : Type) where
  attempted : List String
  outcome : CascadeOutcome α
deriving Repr, DecidableEq

/-- Translation of the market loop of fetch_playlist_tracks in src/core.py:
an initial-request exception with status 403 or 404 records the error and
advances to the next market, any other initial status is fatal, a
pagination failure is fatal; the loop breaks at the first market whose
initial request raises no exception.  After the loop the exhaustion error
fires when no market broke the loop, or when the accumulated items are
empty while an error was recorded. -/
def cascadeGo {α : Type} (oracle : String → MarketPages α) :
    List String → List String → Option Nat → CascadeResult α
  | [], att, lastErr => ⟨att, .exhausted lastErr⟩
  | m :: rest, att, lastErr =>
    match runMarket (oracle m) with
    | .initialErr st =>
      if st = 403 ∨ st = 404 then cascadeGo oracle rest (att ++ [m]) (some st)
      else ⟨att ++ [m], .fatalStatus st⟩
    | .pageErr st => ⟨att ++ [m], .fatalPagination st⟩
    | .done its =>
      ⟨att ++ [m], if its.isEmpty ∧ lastErr.isSome then .exhausted lastErr else .ok its⟩

def market_cascade {α : Type} (oracle : String → MarketPages α)
    (markets : List String) : CascadeResult α :=
  cascadeGo oracle markets [] none

structure SpotifyEnv (α : Type) where
  hasCredentials : Bool
  playlistMeta : Except (Option Nat) Unit
  markets : List String
  oracle : String → MarketPages α

inductive FetchOutcome (α : Type) where
  | invalidId (msg : String)
  | editorial (msg : String)
  | configError
  | metaError (status : Option Nat) (editorialHint : Bool)
  | cascadeFatal (status : Nat)
  | cascadePageFatal (status : Nat)
  | exhausted (lastStatus : Option Nat)
  | ok (items : List α)

/-- Observable shape of one call to fetch_playlist_tracks: whether the
Spotify client was constructed (construction precedes every API request in
the source, so a trace with this flag unset made no network call), and the
returned or raised outcome. -/
structure FetchTrace (α : Type) where
  clientConstructed : Bool
  outcome : FetchOutcome α

/-- Bilingual remediation message raised by the editorial short circuit of
fetch_playlist_tracks (Japanese text, then the English text, as in
src/core.py lines 436 to 450). -/
def editorialMessage : String :=
  "このプレイリストはSpotify公式のエディトリアルプレイリスト（ID: 37i9...）です。\n" ++
  "公式プレイリストは地域制限があり、取得できない場合があります。\n\n" ++
  "解決方法：\n" ++
  "1. あなたのアカウントで新しい公開プレイリストを作成\n" ++
  "2. このプレイリストの全曲をコピー\n" ++
  "3. 新しいプレイリストのURLを使用してください\n\n" ++
  "---\n\n" ++
  "This is an official Spotify editorial playlist (ID starts with 37i9).\n" ++
  "Official playlists may be region-restricted and unavailable via API.\n\n" ++
  "Workaround:\n" ++
  "1. Create a new public playlist in your Spotify account\n" ++
  "2. Copy all tracks from this playlist\n" ++
  "3. Use the new playlist URL instead"

/-- Translation of fetch_playlist_tracks in src/core.py: identifier
extraction, the editorial short circuit, client construction (failing on
missing credentials), the metadata request, then the market cascade. -/
def fetch_playlist_tracks {α : Type} (env : SpotifyEnv α) (url_or_id : String) :
    FetchTrace α :=
  match extract_playlist_id url_or_id with
  | .error msg => ⟨false, .invalidId msg⟩
  | .ok pid =>
    if pyStartsWith "37i9" pid then ⟨false, .editorial editorialMessage⟩
    else if !env.hasCredentials then ⟨false, .configError⟩
    else
      match env.playlistMeta with
      | .error st => ⟨true, .metaError st (pyStartsWith "37i9" pid)⟩
      | .ok _ =>
        let r := market_cascade env.oracle env.markets
        ⟨true,
          match r.outcome with
          | .ok its => .ok its
          | .fatalStatus st => .cascadeFatal st
          | .fatalPagination st => .cascadePageFatal st
          | .exhausted le => .exhausted le⟩

/-! ## Playlist cache keys (src/app.py) and the per-URL cache of the Apple
scrape fetcher (src/core.py) -/

/-- Effective enrich flag computed by the request layer for the apple
source: zero when unspecified, else one exactly for the value one. -/
def effective_enrich (enrich_spotify : Option Int) : Nat :=
  match enrich_spotify with
  | none => 0
  | some v => if v = 1 then 1 else 0

/-- Translation of the cache-key construction of get_playlist in
src/app.py: version, source and normalized URL, with the enrich flag and
the extraction mode appended for the apple source. -/
def playlist_cache_key (version src normalizedUrl : String) (enrich : Nat)
    (mode : String) : String :=
  let base := version ++ ":" ++ src ++ ":" ++ normalizedUrl
  if src = "apple" then
    base ++ ":enrich=" ++ toString enrich ++ ":mode=" ++ mode
  else base

/-- Lookup step of the function-attribute cache inside
fetch_apple_playlist_tracks_from_web (src/core.py line 740): the entry
under the URL alone, consulted whenever the requested mode is not legacy.
The enrich flag is not a parameter of the fetcher and does not reach this
cache. -/
def apple_inner_cache_lookup {α : Type} (cache : List (String × α))
    (url apple_mode : String) : Option α :=
  if (dictGet url cache).isSome ∧ apple_mode ≠ "legacy" then dictGet url cache
  else none

/-- Store step of the same cache (src/core.py lines 1513 and 2054): keyed by
the URL alone. -/
def apple_inner_cache_store {α : Type} (cache : List (String × α))
    (url : String) (result : α) : List (String × α) :=
  dictInsert url result cache

/-! ## Virtualized-list scroll loop of run_fast_playwright (src/core.py)

One scroll round observes the rendered page: the row count and the
fingerprint of the last row (none when no fingerprint could be derived).
The running distinct-fingerprint count is derived in the loop from a set of
fingerprints seen, as in the source. -/

structure ScrollObs where
  count : Nat
  key : Option String
deriving Repr, DecidableEq

structure ScrollState where
  prevCount : Nat
  prevLastKey : Option String
  prevUnique : Nat
  stableRounds : Nat
  seenKeys : List String
deriving Repr, DecidableEq

/-- Set insertion for the fingerprint set. -/
def insertKey (k : String) (seen : List String) : List String :=
  if k ∈ seen then seen else seen ++ [k]

/-- Fingerprint set after one round: the observed fingerprint, if any, is
added to the set of fingerprints seen. -/
def scrollNewSeen (st : ScrollState) (o : ScrollObs) : List String :=
  match o.key with
  | some k => insertKey k st.seenKeys
  | none => st.seenKeys

/-- Growth test of one round: larger row count, a truthy fingerprint
different from the carried one, or a larger distinct-fingerprint count. -/
def scrollChanged (st : ScrollState) (o : ScrollObs) : Prop :=
  (o.count > st.prevCount) ∨ (o.key.isSome ∧ o.key ≠ st.prevLastKey) ∨
    ((scrollNewSeen st o).length > st.prevUnique)

instance (st : ScrollState) (o : ScrollObs) : Decidable (scrollChanged st o) := by
  unfold scrollChanged
  infer_instance

/-- One iteration of the scroll loop: record the fingerprint, detect growth
in row count, last-row fingerprint or distinct-fingerprint count, reset or
advance the stable-round counter, and carry the monotone maxima exactly as
the source does. -/
def scrollStep (st : ScrollState) (o : ScrollObs) : ScrollState :=
  { prevCount := max st.prevCount o.count
    prevLastKey := if o.key.isSome then o.key else st.prevLastKey
    prevUnique := max st.prevUnique (scrollNewSeen st o).length
    stableRounds := if scrollChanged st o then 0 else st.stableRounds + 1
    seenKeys := scrollNewSeen st o }

def initScrollState : ScrollState := ⟨0, none, 0, 0, []⟩

/-- Loop driver: runs rounds until the stable-round counter reaches the
target or the remaining iteration budget is spent, returning the number of
rounds executed. -/
def scrollGo (obs : Nat → ScrollObs) (target : Nat) :
    Nat → Nat → ScrollState → Nat
  | i, 0, _ => i
  | i, fuel + 1, st =>
    let st' := scrollStep st (obs i)
    if target ≤ st'.stableRounds then i + 1
    else scrollGo obs target (i + 1) fuel st'

/-- Number of scroll rounds the loop of run_fast_playwright executes, given
the per-round observations and the two configured ceilings (both clamped to
at least one, as in the source). -/
def scroll_iterations (obs : Nat → ScrollObs)
    (stableRoundsCfg maxItersCfg : Nat) : Nat :=
  scrollGo obs (max 1 stableRoundsCfg) 0 (max 1 maxItersCfg) initScrollState

/-! ## Shared helper lemmas -/

theorem string_append_ne_empty (a b : String) (ha : a ≠ "") : a ++ b ≠ "" := by
  intro h
  apply ha
  have hd := congrArg String.data h
  simp only [String.data_append] at hd
  have : a.data = [] := (List.append_eq_nil.mp hd).1
  exact String.ext this

theorem string_append_cancel_left {a b c : String} (h : a ++ b = a ++ c) :
    b = c := by
  have hd := congrArg String.data h
  simp only [String.data_append] at hd
  exact String.ext (List.append_cancel_left hd)

/-! ## Claims -/

/-- C2: the fallback-key generator is collision-safe across its pipe
delimiter.  The pair of inputs of the claim produces two different keys,
and the sanitizer guarantees no literal pipe survives in any escaped key
field, so the only pipes in a fallback key are the joining delimiters. -/
theorem replaceChar_all_ne (a b : Char) (hab : ¬ b = a) (cs : List Char) :
    ((replaceChar a b cs).all fun c => !(c == a)) = true := by
  rw [List.all_eq_true]
  intro c hc
  simp only [replaceChar, List.mem_map] at hc
  obtain ⟨d, -, rfl⟩ := hc
  by_cases hd : (d == a) = true
  · simp [hd, hab]
  · simp [hd]

/-- C2: the fallback-key generator is collision-safe across its pipe
delimiter.  The pair of inputs of the claim produces two different keys,
and the sanitizer guarantees no literal pipe survives in any escaped key
field, so the only pipes in a fallback key are the joining delimiters. -/
theorem spotify_shopper_c2 :
    generate_track_key_fallback "A|B" "C" none ≠
        generate_track_key_fallback "A" "B|C" none
    ∧ ∀ s : String, ((sanitize_field s).data.all fun c => !(c == '|')) = true := by
  constructor
  · decide
  · intro s
    exact replaceChar_all_ne '|' '／' (by decide) _

/-- C9 counterexample: with the file inside the size ceiling and no cache
entry, a parse whose measured duration exceeds the time ceiling still runs
to completion (the parse-ran flag of the trace is set) and only then raises
the timeout error; the parse is not aborted. -/
theorem spotify_shopper_c9_counterexample :
    load_rekordbox_library_xml (20 * 1024 * 1024) 30000 none true 1000 30001 true [] =
      ⟨true, .error .timeout⟩ := rfl

/-- C9 amended: the size ceiling is enforced before any parsing begins (an
oversized file is rejected with the parse never run), while the time
ceiling is checked only after the parse has already run to completion: the
timeout error is raised post hoc rather than aborting the parse. -/
theorem spotify_shopper_c9_amended (maxSizeBytes timeoutMs sizeBytes parseMs : Nat)
    (cache : Option RekordboxLibrary) (hasCollection : Bool)
    (tracks : List TrackElem) :
    (maxSizeBytes < sizeBytes →
      load_rekordbox_library_xml maxSizeBytes timeoutMs cache true sizeBytes
          parseMs hasCollection tracks = ⟨false, .error .overflow⟩)
    ∧ (sizeBytes ≤ maxSizeBytes → cache = none → timeoutMs < parseMs →
      load_rekordbox_library_xml maxSizeBytes timeoutMs cache true sizeBytes
          parseMs hasCollection tracks = ⟨true, .error .timeout⟩) := by
  constructor
  · intro h
    simp [load_rekordbox_library_xml, h]
  · intro h1 h2 h3
    subst h2
    simp [load_rekordbox_library_xml, Nat.not_lt.mpr h1, h3]

/-- C9 witness: the amended theorem at concrete ceilings: an oversized file
is rejected before parsing, and a slow parse raises the timeout error after
running to completion. -/
theorem spotify_shopper_c9_witness :
    load_rekordbox_library_xml 100 30000 none true 101 5 true [] =
        ⟨false, .error .overflow⟩
    ∧ load_rekordbox_library_xml 100 30000 none true 50 30001 true [] =
        ⟨true, .error .timeout⟩ :=
  ⟨(spotify_shopper_c9_amended 100 30000 101 5 none true []).1 (by decide),
   (spotify_shopper_c9_amended 100 30000 50 30001 none true []).2 (by decide) rfl
     (by decide)⟩

/-- C6: any input whose extracted playlist identifier begins with the
editorial tag four-character sequence is rejected with the bilingual
remediation message, with the Spotify client never constructed (client
construction precedes every API request in the source, so no network call
is made), and the message is non-empty. -/
theorem spotify_shopper_c6 {α : Type} (env : SpotifyEnv α) (s pid : String)
    (hex : extract_playlist_id s = .ok pid)
    (hpre : pyStartsWith "37i9" pid = true) :
    fetch_playlist_tracks env s =
        ⟨false, FetchOutcome.editorial editorialMessage⟩
    ∧ editorialMessage ≠ "" := by
  refine ⟨?_, by decide⟩
  simp [fetch_playlist_tracks, hex, hpre]

def c6Env : SpotifyEnv Nat :=
  ⟨true, .ok (), ["JP", "US", "GB"], fun _ => ⟨.fetchErr 404, []⟩⟩

/-- C6 witness: a URI-shaped input with an editorial identifier is rejected
before client construction, in an environment with credentials and
reachable markets. -/
theorem spotify_shopper_c6_witness :
    fetch_playlist_tracks c6Env "spotify:playlist:37i9dQZF1DXcBWIGoYBM5M" =
      ⟨false, FetchOutcome.editorial editorialMessage⟩ :=
  (spotify_shopper_c6 c6Env "spotify:playlist:37i9dQZF1DXcBWIGoYBM5M"
    "37i9dQZF1DXcBWIGoYBM5M" rfl (by decide)).1

/-- C5 counterexample: the per-URL cache inside the Apple scrape fetcher is
keyed by URL alone, so a result stored by a request with enrich zero and
fast mode is returned to a request with enrich one and auto mode for the
same URL, although the two combinations are distinct requests (their outer
cache keys differ). -/
theorem spotify_shopper_c5_counterexample :
    apple_inner_cache_lookup
        (apple_inner_cache_store ([] : List (String × Nat))
          "https://music.apple.com/jp/playlist/pl" 42)
        "https://music.apple.com/jp/playlist/pl" "auto" = some 42
    ∧ playlist_cache_key "v2" "apple" "https://music.apple.com/jp/playlist/pl" 0 "fast" ≠
        playlist_cache_key "v2" "apple" "https://music.apple.com/jp/playlist/pl" 1 "auto" := by
  constructor
  · rfl
  · decide

/-- C5 amended: the outer playlist cache of the request layer does isolate
by enrich flag and mode (its keys differ whenever the flag or the mode
differs), and a legacy-mode request bypasses the fetcher's inner per-URL
cache; but the inner cache is keyed by URL alone, so any stored result is
returned to any later non-legacy request for the same URL, regardless of
its enrich flag or of whether its mode is auto or fast. -/
theorem spotify_shopper_c5_amended (v u m m' : String) (e e' : Nat)
    (he : e ≤ 1) (he' : e' ≤ 1) (hne : e ≠ e' ∨ m ≠ m') :
    playlist_cache_key v "apple" u e m ≠ playlist_cache_key v "apple" u e' m'
    ∧ (∀ (α : Type) (cache : List (String × α)) (url : String),
        apple_inner_cache_lookup cache url "legacy" = none)
    ∧ (∀ (α : Type) (cache : List (String × α)) (url : String) (r : α)
        (mode : String), mode ≠ "legacy" →
        apple_inner_cache_lookup (apple_inner_cache_store cache url r) url mode =
          some r) := by
  refine ⟨?_, ?_, ?_⟩
  · intro hkey
    simp only [playlist_cache_key, String.append_assoc, ite_true] at hkey
    replace hkey := string_append_cancel_left hkey
    replace hkey := string_append_cancel_left hkey
    replace hkey := string_append_cancel_left hkey
    replace hkey := string_append_cancel_left hkey
    replace hkey := string_append_cancel_left hkey
    replace hkey := string_append_cancel_left hkey
    rcases Nat.le_one_iff_eq_zero_or_eq_one.mp he with rfl | rfl <;>
      rcases Nat.le_one_iff_eq_zero_or_eq_one.mp he' with rfl | rfl
    · replace hkey := string_append_cancel_left hkey
      replace hkey := string_append_cancel_left hkey
      rcases hne with hee | hmm'
      · exact hee rfl
      · exact hmm' hkey
    · have hd : ('0' :: (":mode=" ++ m).data) = '1' :: (":mode=" ++ m').data :=
        congrArg String.data hkey
      simp at hd
    · have hd : ('1' :: (":mode=" ++ m).data) = '0' :: (":mode=" ++ m').data :=
        congrArg String.data hkey
      simp at hd
    · replace hkey := string_append_cancel_left hkey
      replace hkey := string_append_cancel_left hkey
      rcases hne with hee | hmm'
      · exact hee rfl
      · exact hmm' hkey
  · intro α cache url
    simp [apple_inner_cache_lookup]
  · intro α cache url r mode hmode
    simp [apple_inner_cache_lookup, apple_inner_cache_store, dictInsert, dictGet, hmode]

/-- C5 amended witness: concrete instantiation with differing enrich flags
and modes, a legacy bypass, and an inner-cache hit across modes. -/
theorem spotify_shopper_c5_witness :
    playlist_cache_key "v2" "apple" "u" 0 "fast" ≠
        playlist_cache_key "v2" "apple" "u" 1 "auto"
    ∧ apple_inner_cache_lookup
        (apple_inner_cache_store ([] : List (String × Nat)) "u" 7) "u" "fast" =
      some 7 := by
  have h := spotify_shopper_c5_amended "v2" "u" "fast" "auto" 0 1
    (by decide) (by decide) (Or.inl (by decide))
  exact ⟨h.1, h.2.2 Nat ([] : List (String × Nat)) "u" 7 "fast" (by decide)⟩

theorem generate_track_key_fallback_ne_empty (t a : String) (alb : Option String) :
    generate_track_key_fallback t a alb ≠ "" := by
  unfold generate_track_key_fallback
  dsimp only
  split
  · apply string_append_ne_empty
    apply string_append_ne_empty
    apply string_append_ne_empty
    apply string_append_ne_empty
    apply string_append_ne_empty
    decide
  · apply string_append_ne_empty
    apply string_append_ne_empty
    apply string_append_ne_empty
    decide

def c1CexRaw : RawResult :=
  ⟨⟨some "pid", some "Playlist", some "https://open.spotify.com/playlist/pid", none⟩,
   [⟨some ⟨some "Song", [⟨some "DJ"⟩], some ⟨some "Album"⟩,
       ⟨some "https://s", none⟩, some " ", false⟩⟩]⟩

/-- C1 counterexample: a track whose ISRC field is the one-space string is
present and non-empty, yet the emitted track's primary key does not start
with the isrc tag: it falls back to the norm key, because the source treats
a whitespace-only ISRC as absent. -/
theorem spotify_shopper_c1_counterexample :
    (playlist_result_to_dict id c1CexRaw).tracks.map
        (fun t => (t.isrc, pyStartsWith "isrc:" t.track_key_primary,
          t.track_key_primary == t.track_key_fallback)) =
      [(some " ", false, true)]
    ∧ (" " : String) ≠ "" := ⟨by decide, by decide⟩

/-- C1 amended: for every track emitted by playlist_result_to_dict, if the
ISRC is present and non-blank (non-empty after stripping whitespace) the
primary key is the isrc tag followed by the uppercased ISRC; otherwise the
primary key equals the fallback key; and the primary key is never empty. -/
theorem spotify_shopper_c1_amended (nfc : String → String) (raw : RawResult)
    (t : TrackOut) (ht : t ∈ (playlist_result_to_dict nfc raw).tracks) :
    (∀ i, t.isrc = some i → pyStrip i ≠ "" →
        t.track_key_primary = "isrc:" ++ pyUpper i)
    ∧ ((∀ i, t.isrc = some i → pyStrip i = "") →
        t.track_key_primary = t.track_key_fallback)
    ∧ t.track_key_primary ≠ "" := by
  simp only [playlist_result_to_dict, List.mem_filterMap] at ht
  obtain ⟨item, -, hf⟩ := ht
  cases hitem : item.track with
  | none => rw [hitem] at hf; simp at hf
  | some track =>
    rw [hitem] at hf
    by_cases hl : track.isLocal = true
    · simp [hl] at hf
    · simp only [hl, if_false, Bool.false_eq_true, ite_false] at hf
      replace hf := Option.some.inj hf
      subst hf
      refine ⟨?_, ?_, ?_⟩
      · intro i hi hstrip
        have hine : i ≠ "" := by
          intro h
          apply hstrip
          rw [h]
          rfl
        simp only [mkTrackOut] at hi ⊢
        rw [hi]
        simp [generate_track_key_primary, hine, hstrip,
          string_append_ne_empty "isrc:" (pyUpper i) (by decide)]
      · intro hblank
        simp only [mkTrackOut]
        cases hisrc : track.isrcEx with
        | none => simp [generate_track_key_primary]
        | some i =>
          have := hblank i (by simpa [mkTrackOut] using hisrc)
          simp [generate_track_key_primary, hisrc, this]
      · simp only [mkTrackOut]
        cases hisrc : track.isrcEx with
        | none =>
          simp only [generate_track_key_primary]
          exact generate_track_key_fallback_ne_empty _ _ _
        | some i =>
          simp only [generate_track_key_primary]
          by_cases hc : i ≠ "" ∧ pyStrip i ≠ ""
          · simp only [if_pos hc]
            have hne := string_append_ne_empty "isrc:" (pyUpper i) (by decide)
            simp [hne]
          · simp only [if_neg hc]
            exact generate_track_key_fallback_ne_empty _ _ _

def c1WitTrack : RawTrack :=
  ⟨some "Song", [⟨some "DJ"⟩], some ⟨some "Album"⟩, ⟨some "https://s", none⟩,
    some "usabc1234567", false⟩

def c1WitRaw : RawResult :=
  ⟨⟨some "pid", some "Playlist", some "https://open.spotify.com/playlist/pid", none⟩,
   [⟨some c1WitTrack⟩]⟩

/-- C1 amended witness: a lowercase ISRC yields the isrc-tagged uppercased
primary key, which is non-empty. -/
theorem spotify_shopper_c1_witness :
    (mkTrackOut id c1WitTrack).track_key_primary = "isrc:" ++ pyUpper "usabc1234567"
    ∧ (mkTrackOut id c1WitTrack).track_key_primary ≠ "" := by
  have h := spotify_shopper_c1_amended id c1WitRaw (mkTrackOut id c1WitTrack)
    (List.Mem.head _)
  exact ⟨h.1 "usabc1234567" rfl (by decide), h.2.2⟩

theorem dictGet_insert {K V : Type} [DecidableEq K] (k k' : K) (v : V)
    (d : List (K × V)) :
    dictGet k (dictInsert k' v d) = if k' = k then some v else dictGet k d := rfl

/-- Per-element update of the ISRC index alone, mirroring the first index
update of the parser loop. -/
def isrcIndexStep (d : List (String × RekordboxTrack)) (e : TrackElem) :
    List (String × RekordboxTrack) :=
  match e.isrc with
  | some j => if j ≠ "" then dictInsert (pyUpper j) (trackInfoOfElem e) d else d
  | none => d

theorem foldl_pairs_by_isrc (ps : List (String × String)) (info : RekordboxTrack) :
    ∀ l : RekordboxLibrary,
      (ps.foldl
          (fun l p => { l with by_title_artist := dictAppend p info l.by_title_artist })
          l).by_isrc = l.by_isrc := by
  induction ps with
  | nil => intro l; rfl
  | cons p ps ih => intro l; rw [List.foldl_cons]; exact ih _

theorem addTrackToLibrary_by_isrc (lib : RekordboxLibrary) (e : TrackElem) :
    (addTrackToLibrary lib e).by_isrc = isrcIndexStep lib.by_isrc e := by
  unfold addTrackToLibrary isrcIndexStep
  dsimp only
  split <;> split <;>
    (rw [foldl_pairs_by_isrc]; cases he : e.isrc <;> simp [he] <;> split <;> rfl)

theorem buildLibrary_by_isrc (ts : List TrackElem) :
    (buildLibrary ts).by_isrc = ts.foldl isrcIndexStep [] := by
  suffices h : ∀ lib : RekordboxLibrary,
      (ts.foldl addTrackToLibrary lib).by_isrc = ts.foldl isrcIndexStep lib.by_isrc from
    h emptyLibrary
  induction ts with
  | nil => intro lib; rfl
  | cons e ts ih =>
    intro lib
    rw [List.foldl_cons, List.foldl_cons, ih, addTrackToLibrary_by_isrc]

theorem isrcIndexStep_lookup_isSome (d : List (String × RekordboxTrack))
    (e : TrackElem) (k : String) :
    (dictGet k (isrcIndexStep d e)).isSome ↔
      ((dictGet k d).isSome ∨ ∃ j, e.isrc = some j ∧ j ≠ "" ∧ pyUpper j = k) := by
  unfold isrcIndexStep
  cases he : e.isrc with
  | none => simp [he]
  | some j =>
    by_cases hj : j = ""
    · simp [he, hj]
    · simp only [he, hj, ne_eq, not_false_iff, if_true]
      rw [dictGet_insert]
      by_cases hk : pyUpper j = k
      · simp [hk, hj]
      · simp [hk, hj]

theorem isrcIndex_lookup_isSome (ts : List TrackElem) (k : String) :
    ∀ d, (dictGet k (ts.foldl isrcIndexStep d)).isSome ↔
      ((dictGet k d).isSome ∨
        ∃ e ∈ ts, ∃ j, e.isrc = some j ∧ j ≠ "" ∧ pyUpper j = k) := by
  induction ts with
  | nil => intro d; simp
  | cons e ts ih =>
    intro d
    rw [List.foldl_cons, ih, isrcIndexStep_lookup_isSome]
    constructor
    · rintro ((hd | hhead) | ⟨e', he', hj⟩)
      · exact Or.inl hd
      · exact Or.inr ⟨e, List.mem_cons_self e ts, hhead⟩
      · exact Or.inr ⟨e', List.mem_cons_of_mem e he', hj⟩
    · rintro (hd | ⟨e', he', hj⟩)
      · exact Or.inl (Or.inl hd)
      · rcases List.mem_cons.mp he' with rfl | he'
        · exact Or.inl (Or.inr hj)
        · exact Or.inr ⟨e', he', hj⟩

/-- C3: a playlist track whose ISRC matches, case-insensitively, the ISRC of
some track of the loaded Rekordbox library is marked owned with method isrc
and score one, and the outcome does not consult the later stages: it is
unchanged under any similarity function and any library agreeing on the
ISRC index. -/
theorem spotify_shopper_c3 (ts : List TrackElem) (t : TrackOut) (i : String)
    (hisrc : t.isrc = some i) (hne : i ≠ "")
    (hmem : ∃ e ∈ ts, ∃ j, e.isrc = some j ∧ j ≠ "" ∧ pyUpper j = pyUpper i)
    (sim sim' : String → String → ℚ) (lib' : RekordboxLibrary)
    (hlib : lib'.by_isrc = (buildLibrary ts).by_isrc) :
    (mark_owned_track sim (buildLibrary ts) t).owned = true
    ∧ (∃ d, (mark_owned_track sim (buildLibrary ts) t).owned_detail = some d
        ∧ d.method = "isrc" ∧ d.score = 1)
    ∧ mark_owned_track sim' lib' t = mark_owned_track sim (buildLibrary ts) t := by
  have hsome : (dictGet (pyUpper i) (buildLibrary ts).by_isrc).isSome := by
    rw [buildLibrary_by_isrc]
    exact (isrcIndex_lookup_isSome ts (pyUpper i) []).mpr (Or.inr hmem)
  obtain ⟨rb, hrb⟩ := Option.isSome_iff_exists.mp hsome
  have hstage : stage_isrc (buildLibrary ts) t.isrc =
      some ⟨"isrc", 1, rb.title, rb.artist, rb⟩ := by
    rw [hisrc]; simp [stage_isrc, hne, hrb]
  have hstage' : stage_isrc lib' t.isrc =
      some ⟨"isrc", 1, rb.title, rb.artist, rb⟩ := by
    rw [hisrc]; simp [stage_isrc, hne, hlib, hrb]
  refine ⟨?_, ⟨⟨"isrc", 1, rb.title, rb.artist, rb⟩, ?_, rfl, rfl⟩, ?_⟩ <;>
    simp [mark_owned_track, hstage, hstage', Option.some_orElse]

/-- Test fixture: a playlist track carrying only the fields the matcher
reads; the remaining fields are blank. -/
def plainTrack (title artist album : String) (isrc : Option String) : TrackOut :=
  { title := title, artist := artist, album := album, isrc := isrc,
    spotify_url := "", apple_url := "", links := ⟨"", "", ""⟩,
    track_key_primary := "", track_key_fallback := "",
    track_key_primary_type := "", track_key_version := "" }

def c3WitElems : List TrackElem :=
  [⟨some "Track", some "Artist", some "", some "USABC1234567"⟩]

/-- C3 witness: the case-insensitivity scenario of the specification: an
uppercase library ISRC and a lowercase playlist ISRC match via the isrc
method. -/
theorem spotify_shopper_c3_witness :
    (mark_owned_track (fun _ _ => 0) (buildLibrary c3WitElems)
        (plainTrack "T" "A" "" (some "usabc1234567"))).owned = true :=
  (spotify_shopper_c3 c3WitElems (plainTrack "T" "A" "" (some "usabc1234567"))
    "usabc1234567" rfl (by decide)
    ⟨⟨some "Track", some "Artist", some "", some "USABC1234567"⟩, List.Mem.head _,
      "USABC1234567", rfl, by decide, by decide⟩
    (fun _ _ => 0) (fun _ _ => 0) (buildLibrary c3WitElems) rfl).1

theorem bestFuzzyGo_none (sim : String → String → ℚ) (tn : String) :
    ∀ (cands : List RekordboxTrack) (acc : ℚ × Option RekordboxTrack),
      (bestFuzzyGo sim tn acc cands).2 = none → bestFuzzyGo sim tn acc cands = acc := by
  intro cands
  induction cands with
  | nil => intro acc _; rfl
  | cons rb rest ih =>
    intro acc h
    simp only [bestFuzzyGo] at h ⊢
    by_cases hs : acc.1 < sim tn (normalize_title_base rb.title)
    · rw [if_pos hs] at h ⊢
      have heq := ih _ h
      rw [heq] at h
      simp at h
    · rw [if_neg hs] at h ⊢
      exact ih _ h

theorem bestFuzzy_none_score (sim : String → String → ℚ) (tn : String)
    (cands : List RekordboxTrack) (h : (bestFuzzy sim tn cands).2 = none) :
    (bestFuzzy sim tn cands).1 = 0 := by
  unfold bestFuzzy at h ⊢
  rw [bestFuzzyGo_none sim tn cands _ h]

/-- C4: under the failure of the ISRC, exact and album stages (with the
normalized title and artist non-empty, which the source requires before
running the fuzzy stage), the matcher accepts the track exactly when the
best similarity over the same-normalized-artist candidates reaches the
threshold 92/100: similarity exactly 92/100 matches, anything strictly
below does not; and any produced detail is the fuzzy method carrying the
best score and the single best-scoring candidate. -/
theorem spotify_shopper_c4 (sim : String → String → ℚ) (lib : RekordboxLibrary)
    (t : TrackOut)
    (h1 : ∀ i, t.isrc = some i → i = "" ∨ dictGet (pyUpper i) lib.by_isrc = none)
    (htn : normalize_title_base t.title ≠ "")
    (han : normalize_artist t.artist ≠ "")
    (h2 : (dictGet (normalize_title_base t.title, normalize_artist t.artist)
        lib.by_title_artist).getD [] = [])
    (h3 : normalize_album t.album = "" ∨
      (dictGet (normalize_title_base t.title, normalize_album t.album)
        lib.by_title_album).getD [] = []) :
    ((mark_owned_track sim lib t).owned = true ↔
      mkRat 92 100 ≤ (bestFuzzy sim (normalize_title_base t.title)
        ((dictGet (normalize_artist t.artist) lib.by_artist_norm).getD [])).1)
    ∧ ∀ d, (mark_owned_track sim lib t).owned_detail = some d →
        d.method = "fuzzy"
        ∧ d.score = (bestFuzzy sim (normalize_title_base t.title)
            ((dictGet (normalize_artist t.artist) lib.by_artist_norm).getD [])).1
        ∧ some d.rb_track = (bestFuzzy sim (normalize_title_base t.title)
            ((dictGet (normalize_artist t.artist) lib.by_artist_norm).getD [])).2 := by
  have hs1 : stage_isrc lib t.isrc = none := by
    cases hi : t.isrc with
    | none => rfl
    | some i =>
      rcases h1 i hi with rfl | hget
      · simp [stage_isrc]
      · simp [stage_isrc, hget]
  have hs2 : stage_exact lib (normalize_title_base t.title)
      (normalize_artist t.artist) = none := by
    simp only [stage_exact, h2]
    simp [htn, han]
  have hs3 : stage_album lib (normalize_title_base t.title)
      (normalize_album t.album) = none := by
    rcases h3 with halb | hget
    · simp [stage_album, halb]
    · simp only [stage_album, hget]
      simp
  set best := bestFuzzy sim (normalize_title_base t.title)
    ((dictGet (normalize_artist t.artist) lib.by_artist_norm).getD []) with hbest
  have hmark : mark_owned_track sim lib t =
      match stage_fuzzy sim lib (normalize_title_base t.title)
          (normalize_artist t.artist) with
      | some d => ⟨t, true, some d, some d.method⟩
      | none => ⟨t, false, none, none⟩ := by
    simp [mark_owned_track, hs1, hs2, hs3, Option.none_orElse]
  have hfuz : stage_fuzzy sim lib (normalize_title_base t.title)
      (normalize_artist t.artist) =
      if mkRat 92 100 ≤ best.1 ∧ best.2.isSome then
        match best.2 with
        | some rb => some ⟨"fuzzy", best.1, rb.title, rb.artist, rb⟩
        | none => none
      else none := by
    simp [stage_fuzzy, htn, han, ← hbest]
  have hposne : mkRat 92 100 ≤ best.1 → best.2.isSome := by
    intro hle
    cases hb2 : best.2 with
    | some rb => rfl
    | none =>
      have h0 := bestFuzzy_none_score sim (normalize_title_base t.title)
        ((dictGet (normalize_artist t.artist) lib.by_artist_norm).getD [])
        (by rw [← hbest]; exact hb2)
      rw [← hbest] at h0
      rw [h0] at hle
      exact absurd hle (by decide)
  constructor
  · constructor
    · intro howned
      by_contra hnot
      rw [hmark, hfuz] at howned
      simp [hnot] at howned
    · intro hle
      have hsome := hposne hle
      obtain ⟨rb, hrb⟩ := Option.isSome_iff_exists.mp hsome
      rw [hmark, hfuz, hrb]
      simp [hle, hrb ▸ hsome, hrb]
  · intro d hd
    rw [hmark, hfuz] at hd
    by_cases hcond : mkRat 92 100 ≤ best.1 ∧ best.2.isSome
    · rw [if_pos hcond] at hd
      obtain ⟨rb, hrb⟩ := Option.isSome_iff_exists.mp hcond.2
      rw [hrb] at hd
      simp at hd
      rw [← hd]
      exact ⟨rfl, rfl, hrb.symm⟩
    · rw [if_neg hcond] at hd
      simp at hd

def c4WitRb : RekordboxTrack := ⟨"Tunes", "DJ", "", none, "tunes", "dj", ""⟩

def c4WitLib : RekordboxLibrary :=
  { by_isrc := [], by_title_artist := [], by_artist_norm := [("dj", [c4WitRb])],
    by_title_album := [] }

/-- C4 witness: with a constant similarity of exactly 92/100 the track is
owned; with a constant similarity of 9199/10000 it is not. -/
theorem spotify_shopper_c4_witness :
    (mark_owned_track (fun _ _ => mkRat 92 100) c4WitLib
        (plainTrack "Tune" "DJ" "" none)).owned = true
    ∧ (mark_owned_track (fun _ _ => mkRat 9199 10000) c4WitLib
        (plainTrack "Tune" "DJ" "" none)).owned = false := by
  have hHi := spotify_shopper_c4 (fun _ _ => mkRat 92 100) c4WitLib
    (plainTrack "Tune" "DJ" "" none) (fun i h => nomatch h) (by decide) (by decide)
    rfl (Or.inl rfl)
  have hLo := spotify_shopper_c4 (fun _ _ => mkRat 9199 10000) c4WitLib
    (plainTrack "Tune" "DJ" "" none) (fun i h => nomatch h) (by decide) (by decide)
    rfl (Or.inl rfl)
  constructor
  · exact hHi.1.mpr (by decide)
  · cases howned : (mark_owned_track (fun _ _ => mkRat 9199 10000) c4WitLib
        (plainTrack "Tune" "DJ" "" none)).owned
    · rfl
    · exact absurd (hLo.1.mp howned) (by decide)

/-- Markets whose initial request fails with a retryable status: every
element raises a Spotify exception with status 403 or 404 on its initial
playlist-tracks request. -/
def prefix403 {α : Type} (oracle : String → MarketPages α) (pre : List String) :
    Prop :=
  ∀ m' ∈ pre, ∃ st, runMarket (oracle m') = .initialErr st ∧ (st = 403 ∨ st = 404)

theorem cascadeGo_prefix {α : Type} (oracle : String → MarketPages α) :
    ∀ pre : List String, prefix403 oracle pre →
      ∀ (rest att : List String) (le : Option Nat),
        ∃ le' : Option Nat,
          cascadeGo oracle (pre ++ rest) att le =
            cascadeGo oracle rest (att ++ pre) le'
          ∧ (pre ≠ [] → le'.isSome)
          ∧ (pre = [] → le' = le) := by
  intro pre
  induction pre with
  | nil =>
    intro _ rest att le
    exact ⟨le, by simp, fun h => absurd rfl h, fun _ => rfl⟩
  | cons m pre ih =>
    intro hpre rest att le
    obtain ⟨st, hrun, hst⟩ := hpre m (List.mem_cons_self _ _)
    have hpre' : prefix403 oracle pre := fun m' hm' =>
      hpre m' (List.mem_cons_of_mem _ hm')
    obtain ⟨le', heq, hsome', hnil⟩ := ih hpre' rest (att ++ [m]) (some st)
    have hisSome : le'.isSome := by
      cases hp : pre with
      | nil => rw [hnil hp]; rfl
      | cons a b => exact hsome' (by simp [hp])
    refine ⟨le', ?_, fun _ => hisSome, fun h => nomatch h⟩
    have hstep : cascadeGo oracle ((m :: pre) ++ rest) att le =
        cascadeGo oracle (pre ++ rest) (att ++ [m]) (some st) := by
      simp only [List.cons_append, cascadeGo, hrun]
      rw [if_pos hst]
      rfl
    rw [hstep, heq, List.append_assoc]
    rfl

def c7CexOracle : String → MarketPages Nat := fun m =>
  if m = "JP" then ⟨.fetchErr 403, []⟩
  else if m = "US" then ⟨.page [] false, []⟩
  else ⟨.page [7] false, []⟩

/-- C7 counterexample: with markets JP, US, GB, where JP fails with 403, US
succeeds with zero items and GB would succeed with an item, the loop stops
at US and raises the exhaustion error: the exhaustion error fires although
GB was never tried and did not fail, and the loop stopped at a market that
returned no results. -/
theorem spotify_shopper_c7_counterexample :
    market_cascade c7CexOracle ["JP", "US", "GB"] =
        ⟨["JP", "US"], .exhausted (some 403)⟩
    ∧ runMarket (c7CexOracle "GB") = .done [7]
    ∧ runMarket (c7CexOracle "US") = .done []
    ∧ (["JP", "US"].contains "GB") = false := by
  refine ⟨rfl, rfl, rfl, rfl⟩

/-- C7 amended: the fetcher walks the configured markets in order.  An
initial-request failure with status 403 or 404 records the error and
advances to the next market; an initial-request failure with any other
status, and any pagination failure, is immediately fatal.  The loop stops
at the first market whose initial request raises no exception, even when it
yields zero items; it then returns those items, except that the exhaustion
error is raised when the items are empty and an earlier market had failed.
When every market fails with 403 or 404, the exhaustion error is raised
after all of them were tried. -/
theorem spotify_shopper_c7_amended {α : Type} (oracle : String → MarketPages α) :
    (∀ pre m post its, prefix403 oracle pre → runMarket (oracle m) = .done its →
      (market_cascade oracle (pre ++ m :: post)).attempted = pre ++ [m]
      ∧ (its ≠ [] →
          (market_cascade oracle (pre ++ m :: post)).outcome = .ok its)
      ∧ (its = [] → pre = [] →
          (market_cascade oracle (pre ++ m :: post)).outcome = .ok its)
      ∧ (its = [] → pre ≠ [] → ∃ st : Nat,
          (market_cascade oracle (pre ++ m :: post)).outcome =
            .exhausted (some st)))
    ∧ (∀ pre m post st, prefix403 oracle pre →
        runMarket (oracle m) = .initialErr st → ¬(st = 403 ∨ st = 404) →
        market_cascade oracle (pre ++ m :: post) = ⟨pre ++ [m], .fatalStatus st⟩)
    ∧ (∀ pre m post st, prefix403 oracle pre →
        runMarket (oracle m) = .pageErr st →
        market_cascade oracle (pre ++ m :: post) =
          ⟨pre ++ [m], .fatalPagination st⟩)
    ∧ (∀ ms, prefix403 oracle ms →
        (market_cascade oracle ms).attempted = ms
        ∧ ∃ le, (market_cascade oracle ms).outcome = .exhausted le) := by
  refine ⟨?_, ?_, ?_, ?_⟩
  · intro pre m post its hpre hrun
    obtain ⟨le', heq, hsome', hnil⟩ :=
      cascadeGo_prefix oracle pre hpre (m :: post) [] none
    have hres : market_cascade oracle (pre ++ m :: post) =
        ⟨pre ++ [m],
          if its.isEmpty ∧ le'.isSome then .exhausted le' else .ok its⟩ := by
      unfold market_cascade
      rw [heq]
      simp only [cascadeGo, hrun, List.nil_append]
    refine ⟨by rw [hres], ?_, ?_, ?_⟩
    · intro hne
      have hcond : ¬(its.isEmpty = true ∧ le'.isSome = true) := by
        rintro ⟨h1, -⟩
        exact hne (List.isEmpty_iff.mp h1)
      rw [hres]
      dsimp only
      rw [if_neg hcond]
    · intro hits hpnil
      have hcond : ¬(its.isEmpty = true ∧ (none : Option Nat).isSome = true) := by
        simp
      rw [hres]
      dsimp only
      rw [hnil hpnil, if_neg hcond]
    · intro hits hpne
      obtain ⟨st, hst⟩ := Option.isSome_iff_exists.mp (hsome' hpne)
      refine ⟨st, ?_⟩
      rw [hres]
      dsimp only
      rw [hits, hst, if_pos ⟨rfl, rfl⟩]
  · intro pre m post st hpre hrun hfatal
    obtain ⟨le', heq, -, -⟩ := cascadeGo_prefix oracle pre hpre (m :: post) [] none
    unfold market_cascade
    rw [heq]
    simp only [cascadeGo, hrun, List.nil_append]
    rw [if_neg hfatal]
  · intro pre m post st hpre hrun
    obtain ⟨le', heq, -, -⟩ := cascadeGo_prefix oracle pre hpre (m :: post) [] none
    unfold market_cascade
    rw [heq]
    simp only [cascadeGo, hrun, List.nil_append]
  · intro ms hpre
    obtain ⟨le', heq, -, -⟩ := cascadeGo_prefix oracle ms hpre [] [] none
    rw [List.append_nil] at heq
    unfold market_cascade
    rw [heq]
    exact ⟨rfl, le', rfl⟩

def c7WitOracle : String → MarketPages Nat := fun m =>
  if m = "JP" then ⟨.fetchErr 403, []⟩ else ⟨.page [5] true, [.page [6] false]⟩

/-- C7 amended witness: JP fails with 403 and is skipped, US succeeds with
items across two pages; the cascade stops at US, never trying GB, and
returns the paginated items. -/
theorem spotify_shopper_c7_witness :
    (market_cascade c7WitOracle ["JP", "US", "GB"]).attempted = ["JP", "US"]
    ∧ (market_cascade c7WitOracle ["JP", "US", "GB"]).outcome = .ok [5, 6] := by
  have h := (spotify_shopper_c7_amended c7WitOracle).1 ["JP"] "US" ["GB"] [5, 6]
    (fun m' hm' => ⟨403, by
      have : m' = "JP" := by simpa using hm'
      rw [this]; rfl, Or.inl rfl⟩)
    rfl
  exact ⟨h.1, h.2.1 (by decide)⟩

theorem option_orElse_eq_some {α : Type} (a b : Option α) (x : α)
    (h : (a <|> b) = some x) : a = some x ∨ b = some x := by
  cases a with
  | none => right; simpa using h
  | some y => left; simpa using h

theorem stage_isrc_method (lib : RekordboxLibrary) (isrc : Option String)
    (d : OwnedDetail) (h : stage_isrc lib isrc = some d) : d.method = "isrc" := by
  unfold stage_isrc at h
  cases isrc with
  | none => exact absurd h (by simp)
  | some i =>
    dsimp only at h
    by_cases hi : i = ""
    · simp [hi] at h
    · rw [if_pos hi] at h
      cases hget : dictGet (pyUpper i) lib.by_isrc with
      | none => rw [hget] at h; exact absurd h (by simp)
      | some rb =>
        rw [hget] at h
        injection h with h
        subst h
        rfl

theorem stage_exact_method (lib : RekordboxLibrary) (tn an : String)
    (d : OwnedDetail) (h : stage_exact lib tn an = some d) : d.method = "exact" := by
  unfold stage_exact at h
  split at h
  · split at h
    · injection h with h; subst h; rfl
    · exact absurd h (by simp)
  · exact absurd h (by simp)

theorem stage_album_method (lib : RekordboxLibrary) (tn an : String)
    (d : OwnedDetail) (h : stage_album lib tn an = some d) : d.method = "album" := by
  unfold stage_album at h
  split at h
  · split at h
    · injection h with h; subst h; rfl
    · exact absurd h (by simp)
  · exact absurd h (by simp)

theorem stage_fuzzy_method (sim : String → String → ℚ) (lib : RekordboxLibrary)
    (tn an : String) (d : OwnedDetail) (h : stage_fuzzy sim lib tn an = some d) :
    d.method = "fuzzy" := by
  unfold stage_fuzzy at h
  split at h
  · dsimp only at h
    split at h
    · split at h
      · injection h with h; subst h; rfl
      · exact absurd h (by simp)
    · exact absurd h (by simp)
  · exact absurd h (by simp)

/-- C10: after the matcher runs, every playlist track appears in the output
annotated in place: its pre-existing fields are unchanged, it is owned
exactly when the detail records one of the four methods (each detail also
carries a score), and an unmatched track is not owned and carries the empty
detail. -/
theorem spotify_shopper_c10 (sim : String → String → ℚ) (lib : RekordboxLibrary)
    (tracks : List TrackOut) (t : TrackOut) (ht : t ∈ tracks) :
    mark_owned_track sim lib t ∈ mark_owned_tracks sim lib tracks
    ∧ (mark_owned_track sim lib t).track = t
    ∧ ((mark_owned_track sim lib t).owned = true ↔
        ∃ d, (mark_owned_track sim lib t).owned_detail = some d
          ∧ (d.method = "isrc" ∨ d.method = "exact" ∨ d.method = "album" ∨
              d.method = "fuzzy"))
    ∧ ((mark_owned_track sim lib t).owned = false →
        (mark_owned_track sim lib t).owned_detail = none) := by
  refine ⟨List.mem_map_of_mem _ ht, ?_⟩
  unfold mark_owned_track
  dsimp only
  cases hsc : (stage_isrc lib t.isrc <|>
      stage_exact lib (normalize_title_base t.title) (normalize_artist t.artist) <|>
      stage_album lib (normalize_title_base t.title) (normalize_album t.album) <|>
      stage_fuzzy sim lib (normalize_title_base t.title)
        (normalize_artist t.artist)) with
  | none => simp
  | some d =>
    have hmethod : d.method = "isrc" ∨ d.method = "exact" ∨ d.method = "album" ∨
        d.method = "fuzzy" := by
      rcases option_orElse_eq_some _ _ _ hsc with h1 | h234
      · exact Or.inl (stage_isrc_method _ _ _ h1)
      · rcases option_orElse_eq_some _ _ _ h234 with h2 | h34
        · exact Or.inr (Or.inl (stage_exact_method _ _ _ _ h2))
        · rcases option_orElse_eq_some _ _ _ h34 with h3 | h4
          · exact Or.inr (Or.inr (Or.inl (stage_album_method _ _ _ _ h3)))
          · exact Or.inr (Or.inr (Or.inr (stage_fuzzy_method _ _ _ _ _ h4)))
    exact ⟨rfl, ⟨fun _ => ⟨d, rfl, hmethod⟩, fun _ => rfl⟩, fun h => nomatch h⟩

/-- C10 witness: a track matched by nothing (empty library) is not owned and
carries the empty detail, with its fields unchanged. -/
theorem spotify_shopper_c10_witness :
    (mark_owned_track (fun _ _ => 0) emptyLibrary
        (plainTrack "T" "A" "" none)).track = plainTrack "T" "A" "" none
    ∧ ((mark_owned_track (fun _ _ => 0) emptyLibrary
        (plainTrack "T" "A" "" none)).owned = false →
      (mark_owned_track (fun _ _ => 0) emptyLibrary
        (plainTrack "T" "A" "" none)).owned_detail = none) := by
  have h := spotify_shopper_c10 (fun _ _ => 0) emptyLibrary
    [plainTrack "T" "A" "" none] (plainTrack "T" "A" "" none) (List.Mem.head _)
  exact ⟨h.2.1, h.2.2.2⟩

/-- A state saturated for an observation: the carried maxima already cover
that observation, so observing it again changes nothing. -/
def scrollSaturated (o : ScrollObs) (st : ScrollState) : Prop :=
  o.count ≤ st.prevCount ∧
    ∀ k, o.key = some k → st.prevLastKey = some k ∧ k ∈ st.seenKeys

/-- Loop invariant: the carried distinct-fingerprint maximum equals the size
of the fingerprint set (the set only grows, so the running maximum is the
current size). -/
def scrollInv (st : ScrollState) : Prop :=
  st.prevUnique = st.seenKeys.length

theorem insertKey_length_ge (k : String) (seen : List String) :
    seen.length ≤ (insertKey k seen).length := by
  unfold insertKey
  split
  · exact le_refl _
  · simp

theorem insertKey_mem (k : String) (seen : List String) :
    k ∈ insertKey k seen := by
  unfold insertKey
  split
  · assumption
  · simp

theorem scrollNewSeen_of_sat (st : ScrollState) (o : ScrollObs)
    (hkey : ∀ k, o.key = some k → st.prevLastKey = some k ∧ k ∈ st.seenKeys) :
    scrollNewSeen st o = st.seenKeys := by
  unfold scrollNewSeen
  cases hk : o.key with
  | none => rfl
  | some k =>
    obtain ⟨-, hmem⟩ := hkey k hk
    simp [insertKey, hmem]

theorem scrollStep_saturates (st : ScrollState) (o : ScrollObs)
    (hinv : scrollInv st) :
    scrollSaturated o (scrollStep st o) ∧ scrollInv (scrollStep st o) := by
  unfold scrollInv at hinv
  refine ⟨⟨le_max_right _ _, ?_⟩, ?_⟩
  · intro k hk
    constructor
    · show (if o.key.isSome = true then o.key else st.prevLastKey) = some k
      rw [hk]
      rfl
    · show k ∈ scrollNewSeen st o
      unfold scrollNewSeen
      rw [hk]
      exact insertKey_mem k st.seenKeys
  · show max st.prevUnique (scrollNewSeen st o).length = (scrollNewSeen st o).length
    apply Nat.max_eq_right
    rw [hinv]
    unfold scrollNewSeen
    cases o.key with
    | none => exact le_refl _
    | some k => exact insertKey_length_ge k st.seenKeys

theorem scrollStep_stable (st : ScrollState) (o : ScrollObs)
    (hsat : scrollSaturated o st) (hinv : scrollInv st) :
    (scrollStep st o).stableRounds = st.stableRounds + 1 := by
  obtain ⟨hcount, hkey⟩ := hsat
  unfold scrollInv at hinv
  have hseen := scrollNewSeen_of_sat st o hkey
  have hchanged : ¬ scrollChanged st o := by
    rintro (h | ⟨hsome, hne⟩ | h)
    · exact absurd h (Nat.not_lt.mpr hcount)
    · obtain ⟨k, hk⟩ := Option.isSome_iff_exists.mp hsome
      obtain ⟨hprev, -⟩ := hkey k hk
      exact hne (by rw [hk, hprev])
    · rw [hseen, ← hinv] at h
      exact absurd h (lt_irrefl _)
  show (if scrollChanged st o then 0 else st.stableRounds + 1) = st.stableRounds + 1
  rw [if_neg hchanged]

theorem scrollGo_le_add (obs : Nat → ScrollObs) (target : Nat) :
    ∀ (fuel i : Nat) (st : ScrollState), scrollGo obs target i fuel st ≤ i + fuel := by
  intro fuel
  induction fuel with
  | zero => intro i st; simp [scrollGo]
  | succ fuel ih =>
    intro i st
    rw [scrollGo]
    split
    · omega
    · have := ih (i + 1) (scrollStep st (obs i))
      omega

theorem scrollGo_stable_run (obs : Nat → ScrollObs) (target N : Nat)
    (hconst : ∀ i, N ≤ i → obs i = obs N) :
    ∀ (fuel i : Nat) (st : ScrollState), N ≤ i →
      scrollSaturated (obs N) st → scrollInv st →
      st.stableRounds < target → target ≤ st.stableRounds + fuel →
      scrollGo obs target i fuel st ≤ i + (target - st.stableRounds) := by
  intro fuel
  induction fuel with
  | zero => intro i st _ _ _ hlt hle; omega
  | succ fuel ih =>
    intro i st hNi hsat hinv hlt hle
    rw [scrollGo]
    rw [hconst i hNi]
    have hstable := scrollStep_stable st (obs N) hsat hinv
    have hkeep := scrollStep_saturates st (obs N) hinv
    split
    · omega
    · rename_i hbr
      have hlt' : (scrollStep st (obs N)).stableRounds < target :=
        Nat.lt_of_not_le hbr
      have hrec := ih (i + 1) (scrollStep st (obs N)) (by omega) hkeep.1 hkeep.2
        hlt' (by omega)
      rw [hstable] at hrec
      omega

theorem scrollGo_reach (obs : Nat → ScrollObs) (target N : Nat)
    (hconst : ∀ i, N ≤ i → obs i = obs N) :
    ∀ (fuel i : Nat) (st : ScrollState), i ≤ N → scrollInv st →
      st.stableRounds < target →
      scrollGo obs target i fuel st ≤ N + 1 + target := by
  intro fuel
  induction fuel with
  | zero => intro i st hiN _ _; simp only [scrollGo]; omega
  | succ fuel ih =>
    intro i st hiN hinv hlt
    rw [scrollGo]
    have hkeep := scrollStep_saturates st (obs i) hinv
    split
    · omega
    · rename_i hbr
      have hlt' : (scrollStep st (obs i)).stableRounds < target :=
        Nat.lt_of_not_le hbr
      by_cases hiN' : i = N
      · rw [hiN'] at hkeep hlt' ⊢
        by_cases hfe : target ≤ (scrollStep st (obs N)).stableRounds + fuel
        · have := scrollGo_stable_run obs target N hconst fuel (N + 1)
            (scrollStep st (obs N)) (by omega) hkeep.1 hkeep.2 hlt' hfe
          omega
        · have := scrollGo_le_add obs target fuel (N + 1) (scrollStep st (obs N))
          omega
      · exact ih (i + 1) (scrollStep st (obs i)) (by omega) hkeep.2 hlt'

/-- C8: once the per-round observations are constant from round N on
(zero-indexed: the page stops changing after the first N rounds of growth,
in the claim's one-based counting), the scroll loop of run_fast_playwright
stops within N + 1 + threshold rounds (that is, within N of the claim plus
the stable-rounds threshold, one-based) rather than running to the
iteration ceiling, whenever the ceiling leaves room. -/
theorem spotify_shopper_c8 (obs : Nat → ScrollObs)
    (stableRoundsCfg maxItersCfg N : Nat)
    (hconst : ∀ i, N ≤ i → obs i = obs N)
    (hroom : N + 1 + max 1 stableRoundsCfg < max 1 maxItersCfg) :
    scroll_iterations obs stableRoundsCfg maxItersCfg ≤
        N + 1 + max 1 stableRoundsCfg
    ∧ scroll_iterations obs stableRoundsCfg maxItersCfg < max 1 maxItersCfg := by
  have h1 : scroll_iterations obs stableRoundsCfg maxItersCfg ≤
      N + 1 + max 1 stableRoundsCfg := by
    unfold scroll_iterations
    exact scrollGo_reach obs (max 1 stableRoundsCfg) N hconst (max 1 maxItersCfg)
      0 initScrollState (Nat.zero_le N) rfl
      (lt_of_lt_of_le Nat.zero_lt_one (le_max_left 1 stableRoundsCfg))
  exact ⟨h1, lt_of_le_of_lt h1 hroom⟩

def c8WitObs : Nat → ScrollObs := fun _ => ⟨5, some "row"⟩

/-- C8 witness: a page constant from the start (N zero) stops within three
rounds under the default stable threshold of two, far below the default
ceiling of twelve. -/
theorem spotify_shopper_c8_witness :
    scroll_iterations c8WitObs 2 12 ≤ 0 + 1 + max 1 2
    ∧ scroll_iterations c8WitObs 2 12 < max 1 12 :=
  spotify_shopper_c8 c8WitObs 2 12 0 (fun _ _ => rfl) (by decide)

end SpotifyShopper
